import Mathlib

/-!
Verification of the Door Panel Calculator layout engine
(`src/components/DoorPanelCalculator.jsx`, primary radius-aware version).

The numeric state of the component is embedded as an `Inputs` record over the
real numbers, and each intermediate value of the `calculations` memo is a
Lean definition over that record, translated line by line from the source.
-/

namespace DoorCalc

/-- The golden ratio `phi = (1 + sqrt 5) / 2` (source line 55). -/
noncomputable def phi : ℝ := (1 + Real.sqrt 5) / 2

/-- Keys of the `ratioTypes` table (source lines 21-52). -/
inductive RatioType where
  | golden
  | sqrt2
  | threeTwo
  | fourThree
  | silver
  deriving DecidableEq

/-- The `value` field of each entry of `ratioTypes` (source lines 21-52). -/
noncomputable def ratioValue : RatioType → ℝ
  | .golden => (1 + Real.sqrt 5) / 2
  | .sqrt2 => Real.sqrt 2
  | .threeTwo => 1.5
  | .fourThree => 4 / 3
  | .silver => 1 + Real.sqrt 2

/-- Proportion type strings offered by the UI; `unknown` stands for any other
string, which the generator's `default` branch treats as `equal`. -/
inductive ProportionType where
  | equal
  | golden
  | reverse
  | classic
  | fibonacci
  | unknown
  deriving DecidableEq

/-- The whole numeric input state of the component (source lines 4-18). -/
structure Inputs where
  doorWidth : ℝ
  doorHeight : ℝ
  edgeDistance : ℝ
  panelGap : ℝ
  panelCount : ℕ
  proportionType : ProportionType
  showPeephole : Bool
  peepholeTop : ℝ
  peepholeDiameter : ℝ
  minEdgeDistance : ℝ
  autoCenterPeephole : Bool
  preferGapPlacement : Bool
  autoCalculateSpacing : Bool
  spacingRatioType : RatioType

/-- The `classic` branch's symmetric pattern for `count ≥ 3`
(source lines 153-159): entry `i` is `min(i, count-1-i) + 1`. -/
def classicRatios (count : ℕ) : List ℝ :=
  (List.range count).map fun i => ((min i (count - 1 - i) : ℕ) + 1 : ℝ)

/-- The `fibonacci` branch (source lines 161-167): the array `[1, 1]` extended
by `fib[i-1] + fib[i-2]` and truncated to `count` entries, i.e. the first
`count` terms of the Fibonacci sequence starting `1, 1`. -/
def fibFrom (a b : ℝ) : ℕ → List ℝ
  | 0 => []
  | n + 1 => a :: fibFrom b (a + b) n

/-- `getProportionRatios(count, type)` (source lines 132-172). -/
noncomputable def getProportionRatios (count : ℕ) (t : ProportionType) : List ℝ :=
  if count < 1 then [1]
  else
    match t with
    | .equal => List.replicate count 1
    | .golden => (List.range count).map fun i => phi ^ i
    | .reverse => (List.range count).map fun i => phi ^ (count - 1 - i)
    | .classic =>
        if count = 1 then [1]
        else if count = 2 then [1, 2]
        else classicRatios count
    | .fibonacci => fibFrom 1 1 count
    | .unknown => List.replicate count 1

/-- The auto-spacing solver (source lines 95-123): given door width `W`,
height `H`, panel count `n` and the target area ratio, solve the quadratic
`2k e^2 - (kW + 2H) e + WH/(1+ratio) = 0` with `k = 2 + (n-1)/ratio`, take
the smaller-magnitude root, fall back to `H * 0.05` when the discriminant is
negative or the root is outside `[1, H/3]`, and always return
`gap = edge / ratio`.  Returns `(calculatedEdgeDistance, calculatedPanelGap)`. -/
noncomputable def resolveSpacing (W H : ℝ) (n : ℕ) (ratio : ℝ) : ℝ × ℝ :=
  let k := 2 + ((n : ℝ) - 1) / ratio
  let a := 2 * k
  let b := -(k * W + 2 * H)
  let c := W * H / (1 + ratio)
  let discriminant := b ^ 2 - 4 * a * c
  let e :=
    if 0 ≤ discriminant then
      let e1 := (-b + Real.sqrt discriminant) / (2 * a)
      let e2 := (-b - Real.sqrt discriminant) / (2 * a)
      let m := min |e1| |e2|
      if m < 1 ∨ m > H / 3 then H * 0.05 else m
    else H * 0.05
  (e, e / ratio)

/-- `(calculatedEdgeDistance, calculatedPanelGap)` (source lines 59-124):
the manual values pass through unless `autoCalculateSpacing` is set. -/
noncomputable def effectiveSpacing (I : Inputs) : ℝ × ℝ :=
  if I.autoCalculateSpacing then
    resolveSpacing I.doorWidth I.doorHeight I.panelCount (ratioValue I.spacingRatioType)
  else (I.edgeDistance, I.panelGap)

/-- `calculatedEdgeDistance` actually used by the layout. -/
noncomputable def effectiveEdge (I : Inputs) : ℝ := (effectiveSpacing I).1

/-- `calculatedPanelGap` actually used by the layout. -/
noncomputable def effectiveGap (I : Inputs) : ℝ := (effectiveSpacing I).2

/-- `availableWidth` (source line 126). -/
noncomputable def availableWidth (I : Inputs) : ℝ := I.doorWidth - 2 * effectiveEdge I

/-- `availableHeight` (source line 127). -/
noncomputable def availableHeight (I : Inputs) : ℝ := I.doorHeight - 2 * effectiveEdge I

/-- `totalGaps` (source line 128). -/
noncomputable def totalGaps (I : Inputs) : ℝ := ((I.panelCount : ℝ) - 1) * effectiveGap I

/-- `availableHeightForPanels` (source line 129). -/
noncomputable def availableHeightForPanels (I : Inputs) : ℝ :=
  max 0 (availableHeight I - totalGaps I)

/-- `heightRatios` (source line 174). -/
noncomputable def heightRatios (I : Inputs) : List ℝ :=
  getProportionRatios I.panelCount I.proportionType

/-- `totalRatio` (source line 175). -/
noncomputable def totalRatio (I : Inputs) : ℝ := (heightRatios I).sum

/-- `normalizedRatios` (source line 176). -/
noncomputable def normalizedRatios (I : Inputs) : List ℝ :=
  (heightRatios I).map (· / totalRatio I)

/-- `panelHeights` (source line 179). -/
noncomputable def panelHeights (I : Inputs) : List ℝ :=
  (normalizedRatios I).map (· * availableHeightForPanels I)

/-- `totalUsedHeight` (source line 182). -/
noncomputable def totalUsedHeight (I : Inputs) : ℝ := (panelHeights I).sum + totalGaps I

/-- `fits` (source line 185): unconditionally true in auto mode, otherwise the
epsilon-tolerant height comparison. -/
noncomputable def fits (I : Inputs) : Prop :=
  if I.autoCalculateSpacing then True else totalUsedHeight I ≤ availableHeight I + 0.01

/-- One entry of `panelPositions` (source line 193). -/
structure PanelPosition where
  top : ℝ
  bottom : ℝ
  height : ℝ

/-- The panel-position loop (source lines 188-195): starting at `y`,
each height produces `{top := y, bottom := y + h, height := h}` and advances
`y` by `h + gap`. -/
def positionsFrom (gap : ℝ) : ℝ → List ℝ → List PanelPosition
  | _, [] => []
  | y, h :: t => ⟨y, y + h, h⟩ :: positionsFrom gap (y + h + gap) t

/-- `panelPositions` (source lines 187-195). -/
noncomputable def panelPositions (I : Inputs) : List PanelPosition :=
  positionsFrom (effectiveGap I) (effectiveEdge I) (panelHeights I)

/-- `idealHeight` of the auto-center search (source line 201). -/
noncomputable def idealHeight (I : Inputs) : ℝ := I.doorHeight - 162.5

/-- A candidate position of the auto-center search (source lines 220, 233):
`position` is the would-be `peepholeTop`, `score` the distance from ideal. -/
structure Candidate where
  position : ℝ
  score : ℝ
  inGap : Bool

/-- `gapCandidates` (source lines 210-222): for every pair of consecutive
panels, the gap's center, admissible when the peephole keeps
`minEdgeDistance` clearance from both bounding panel edges. -/
noncomputable def gapCandidates (ideal r minEdge : ℝ) (ps : List PanelPosition) :
    List Candidate :=
  (ps.zip ps.tail).filterMap fun pq =>
    let gapTop := pq.1.bottom
    let gapBottom := pq.2.top
    let gapCenter := (gapTop + gapBottom) / 2
    if gapTop + minEdge ≤ gapCenter - r ∧ gapCenter + r ≤ gapBottom - minEdge then
      some ⟨gapCenter - r, |gapCenter - ideal|, true⟩
    else none

/-- `panelCandidates` (source lines 225-235): each panel's center, admissible
when the peephole keeps `minEdgeDistance` clearance from both panel edges. -/
noncomputable def panelCandidates (ideal r minEdge : ℝ) (ps : List PanelPosition) :
    List Candidate :=
  ps.filterMap fun p =>
    let panelCenter := (p.top + p.bottom) / 2
    if p.top + minEdge ≤ panelCenter - r ∧ panelCenter + r ≤ p.bottom - minEdge then
      some ⟨panelCenter - r, |panelCenter - ideal|, false⟩
    else none

/-- The `reduce((prev, curr) => curr.score < prev.score ? curr : prev)` pick
of the best-scoring candidate (source lines 242-244 and duplicates). -/
noncomputable def chooseBest : List Candidate → Option Candidate
  | [] => none
  | c :: cs => some (cs.foldl (fun prev curr => if curr.score < prev.score then curr else prev) c)

/-- The prioritized selection (source lines 205-274): returns
`(bestPosition, peepholeInGap)`, starting from `(idealHeight, false)`. -/
noncomputable def autoPlace (ideal r minEdge : ℝ) (prefer : Bool)
    (ps : List PanelPosition) : ℝ × Bool :=
  if prefer then
    match chooseBest (gapCandidates ideal r minEdge ps) with
    | some best => (best.position, true)
    | none =>
      match chooseBest (panelCandidates ideal r minEdge ps) with
      | some best => (best.position, false)
      | none => (ideal, false)
  else
    match chooseBest (panelCandidates ideal r minEdge ps) with
    | some best => (best.position, false)
    | none =>
      match chooseBest (gapCandidates ideal r minEdge ps) with
      | some best => (best.position, true)
      | none => (ideal, false)

/-- `(actualPeepholeTop, peepholeInGap)` (source lines 198-275): the raw
`peepholeTop` unless the auto-center search runs. -/
noncomputable def peepholePlacement (I : Inputs) : ℝ × Bool :=
  if I.showPeephole && I.autoCenterPeephole then
    autoPlace (idealHeight I) (I.peepholeDiameter / 2) I.minEdgeDistance
      I.preferGapPlacement (panelPositions I)
  else (I.peepholeTop, false)

/-- `actualPeepholeTop` (source lines 198, 274). -/
noncomputable def actualPeepholeTop (I : Inputs) : ℝ := (peepholePlacement I).1

/-- `peepholeInGap` (source lines 199, 246, 253, 263, 270). -/
noncomputable def peepholeInGap (I : Inputs) : Bool := (peepholePlacement I).2

/-- The per-panel conflict tag with its `distance` payload
(source lines 308-319, 326-330). -/
inductive Conflict where
  | tooCloseToEdge (distance : ℝ)
  | insideSafe (distance : ℝ)
  | crossesEdge (distance : ℝ)

/-- Classification of the peephole against one panel (source lines 299-331):
the inside branch fires when the peephole CENTER lies between the panel's
top and bottom; otherwise a span overlap is `crossesEdge`; otherwise none. -/
noncomputable def classifyPanel (minEdge r top d : ℝ) (p : PanelPosition) :
    Option Conflict :=
  let peepholeCenter := top + r
  let peepholeBottom := top + d
  if p.top ≤ peepholeCenter ∧ peepholeCenter ≤ p.bottom then
    let distFromTop := peepholeCenter - r - p.top
    let distFromBottom := p.bottom - (peepholeCenter + r)
    let minDist := min distFromTop distFromBottom
    if minDist < minEdge then some (.tooCloseToEdge minDist)
    else some (.insideSafe minDist)
  else if top < p.bottom ∧ peepholeBottom > p.top then
    some (.crossesEdge (min |peepholeCenter - p.top| |peepholeCenter - p.bottom|))
  else none

/-- `peepholeConflicts` (source lines 278, 295-334): empty when the peephole
is hidden. -/
noncomputable def peepholeConflicts (I : Inputs) : List (Option Conflict) :=
  if I.showPeephole then
    (panelPositions I).map
      (classifyPanel I.minEdgeDistance (I.peepholeDiameter / 2)
        (actualPeepholeTop I) I.peepholeDiameter)
  else []

/-- The gap-placement tag with its `distance` payload (source lines 347-357). -/
inductive GapStatus where
  | gapTooClose (distance : ℝ)
  | gapSafe (distance : ℝ)

/-- The gap-status loop (source lines 337-361): walk consecutive panel pairs
and stop at the first gap strictly containing the peephole center. -/
noncomputable def gapStatusFind (minEdge top d center : ℝ) :
    List PanelPosition → Option GapStatus
  | [] => none
  | [_] => none
  | p :: q :: rest =>
    let gapTop := p.bottom
    let gapBottom := q.top
    if gapTop < center ∧ center < gapBottom then
      let minDist := min (top - gapTop) (gapBottom - (top + d))
      if minDist < minEdge then some (.gapTooClose minDist)
      else some (.gapSafe minDist)
    else gapStatusFind minEdge top d center (q :: rest)

/-- `peepholeGapStatus` (source lines 280, 336-361). -/
noncomputable def peepholeGapStatus (I : Inputs) : Option GapStatus :=
  if I.showPeephole then
    gapStatusFind I.minEdgeDistance (actualPeepholeTop I) I.peepholeDiameter
      (actualPeepholeTop I + I.peepholeDiameter / 2) (panelPositions I)
  else none

/-- The solver's `k = 2 + (panelCount - 1) / targetRatio` (source line 95),
for input `I` read in auto mode. -/
noncomputable def solverK (I : Inputs) : ℝ :=
  2 + ((I.panelCount : ℝ) - 1) / ratioValue I.spacingRatioType

/-- The solver's quadratic coefficient `a = 2k` (source line 98). -/
noncomputable def solverA (I : Inputs) : ℝ := 2 * solverK I

/-- The solver's coefficient `b = -(k·W + 2·H)` (source line 99). -/
noncomputable def solverB (I : Inputs) : ℝ :=
  -(solverK I * I.doorWidth + 2 * I.doorHeight)

/-- The solver's coefficient `c = W·H/(1+ratio)` (source line 100). -/
noncomputable def solverC (I : Inputs) : ℝ :=
  I.doorWidth * I.doorHeight / (1 + ratioValue I.spacingRatioType)

/-- The solver's `discriminant = b² - 4ac` (source line 103). -/
noncomputable def solverDisc (I : Inputs) : ℝ :=
  solverB I ^ 2 - 4 * solverA I * solverC I

/-- The root `e1 = (-b + √disc)/(2a)` (source line 106). -/
noncomputable def largeRoot (I : Inputs) : ℝ :=
  (-solverB I + Real.sqrt (solverDisc I)) / (2 * solverA I)

/-- The root `e2 = (-b - √disc)/(2a)` (source line 107). -/
noncomputable def smallRoot (I : Inputs) : ℝ :=
  (-solverB I - Real.sqrt (solverDisc I)) / (2 * solverA I)

/-- The resolved peephole center `actualPeepholeTop + diameter/2`
(source line 284). -/
noncomputable def peepholeCenter (I : Inputs) : ℝ :=
  actualPeepholeTop I + I.peepholeDiameter / 2

/-- The resolved peephole bottom `actualPeepholeTop + diameter`
(source line 285). -/
noncomputable def peepholeBottom (I : Inputs) : ℝ :=
  actualPeepholeTop I + I.peepholeDiameter

/-- A concrete manual-mode input: a 100 x 100 door, 2 equal panels, edge
distance 10, gap 10, shown fixed peephole at 41 from the top, diameter 6,
minimum clearance 2.  Its layout is `[(10, 45), (55, 90)]`. -/
noncomputable def exInput : Inputs where
  doorWidth := 100
  doorHeight := 100
  edgeDistance := 10
  panelGap := 10
  panelCount := 2
  proportionType := .equal
  showPeephole := true
  peepholeTop := 41
  peepholeDiameter := 6
  minEdgeDistance := 2
  autoCenterPeephole := false
  preferGapPlacement := false
  autoCalculateSpacing := false
  spacingRatioType := .golden

/-- The same door as `exInput` but with the auto-center peephole search on. -/
noncomputable def exAutoCenter : Inputs where
  doorWidth := 100
  doorHeight := 100
  edgeDistance := 10
  panelGap := 10
  panelCount := 2
  proportionType := .equal
  showPeephole := true
  peepholeTop := 41
  peepholeDiameter := 6
  minEdgeDistance := 2
  autoCenterPeephole := true
  preferGapPlacement := false
  autoCalculateSpacing := false
  spacingRatioType := .golden

/-- A concrete auto-spacing input: the 103 x 203 door with 2 panels. -/
noncomputable def exAutoSpacing : Inputs where
  doorWidth := 103
  doorHeight := 203
  edgeDistance := 15
  panelGap := 10
  panelCount := 2
  proportionType := .golden
  showPeephole := false
  peepholeTop := 45
  peepholeDiameter := 6
  minEdgeDistance := 2
  autoCenterPeephole := false
  preferGapPlacement := false
  autoCalculateSpacing := true
  spacingRatioType := .golden

lemma one_le_phi : (1 : ℝ) ≤ phi := by
  have h5 : (1 : ℝ) ≤ Real.sqrt 5 := by
    rw [show (1 : ℝ) = Real.sqrt 1 by simp]
    exact Real.sqrt_le_sqrt (by norm_num)
  unfold phi
  linarith

lemma phi_pos : (0 : ℝ) < phi := lt_of_lt_of_le one_pos one_le_phi

lemma fibFrom_length (a b : ℝ) : ∀ n, (fibFrom a b n).length = n := by
  intro n
  induction n generalizing a b with
  | zero => rfl
  | succ n ih => simp [fibFrom, ih]

lemma fibFrom_pos (a b : ℝ) (ha : 0 < a) (hb : 0 < b) :
    ∀ n, ∀ x ∈ fibFrom a b n, 0 < x := by
  intro n
  induction n generalizing a b with
  | zero => simp [fibFrom]
  | succ n ih =>
      intro x hx
      rcases List.mem_cons.mp hx with h | h
      · exact h ▸ ha
      · exact ih b (a + b) hb (by linarith) x h

lemma getProportionRatios_length (count : ℕ) (t : ProportionType) (h : 1 ≤ count) :
    (getProportionRatios count t).length = count := by
  have hlt : ¬ count < 1 := by omega
  cases t <;> simp only [getProportionRatios, if_neg hlt]
  case equal => simp
  case golden => simp
  case reverse => simp
  case classic =>
    by_cases h1 : count = 1
    · rw [if_pos h1]; simp [h1]
    · rw [if_neg h1]
      by_cases h2 : count = 2
      · rw [if_pos h2]; simp [h2]
      · rw [if_neg h2]; simp [classicRatios]
  case fibonacci => exact fibFrom_length 1 1 count
  case unknown => simp

lemma getProportionRatios_pos (count : ℕ) (t : ProportionType) :
    ∀ x ∈ getProportionRatios count t, 0 < x := by
  by_cases hlt : count < 1
  · unfold getProportionRatios
    rw [if_pos hlt]
    intro x hx
    simp at hx
    rw [hx]; norm_num
  · cases t <;> simp only [getProportionRatios, if_neg hlt]
    · intro x hx; rw [List.eq_of_mem_replicate hx]; norm_num
    · intro x hx
      simp only [List.mem_map] at hx
      obtain ⟨i, _, rfl⟩ := hx
      exact pow_pos phi_pos i
    · intro x hx
      simp only [List.mem_map] at hx
      obtain ⟨i, _, rfl⟩ := hx
      exact pow_pos phi_pos _
    · intro x hx
      by_cases h1 : count = 1
      · rw [if_pos h1] at hx; simp at hx; rw [hx]; norm_num
      · rw [if_neg h1] at hx
        by_cases h2 : count = 2
        · rw [if_pos h2] at hx
          simp at hx
          rcases hx with h | h <;> rw [h] <;> norm_num
        · rw [if_neg h2] at hx
          simp only [classicRatios, List.mem_map] at hx
          obtain ⟨i, _, rfl⟩ := hx
          positivity
    · exact fibFrom_pos 1 1 one_pos one_pos count
    · intro x hx; rw [List.eq_of_mem_replicate hx]; norm_num

lemma getProportionRatios_ne_nil (count : ℕ) (t : ProportionType) :
    getProportionRatios count t ≠ [] := by
  by_cases hlt : count < 1
  · unfold getProportionRatios
    rw [if_pos hlt]
    simp
  · have h : 1 ≤ count := by omega
    have hlen := getProportionRatios_length count t h
    intro hnil
    rw [hnil] at hlen
    simp at hlen
    omega

lemma getProportionRatios_sum_pos (count : ℕ) (t : ProportionType) :
    0 < (getProportionRatios count t).sum :=
  List.sum_pos _ (getProportionRatios_pos count t) (getProportionRatios_ne_nil count t)

lemma normalizedRatios_sum (I : Inputs) : (normalizedRatios I).sum = 1 := by
  have hpos : 0 < totalRatio I := getProportionRatios_sum_pos _ _
  unfold normalizedRatios
  rw [show ((· / totalRatio I) : ℝ → ℝ) = fun x => x * (totalRatio I)⁻¹ by
        funext x; rw [div_eq_mul_inv],
      List.sum_map_mul_right]
  rw [mul_inv_eq_one₀ (ne_of_gt hpos)]
  simp [totalRatio]

lemma panelHeights_sum (I : Inputs) :
    (panelHeights I).sum = availableHeightForPanels I := by
  unfold panelHeights
  rw [List.sum_map_mul_right]
  simp only [List.map_id']
  rw [normalizedRatios_sum, one_mul]

/-- In exact arithmetic the used height is the larger of the total gap space
and the available height, whatever the proportion weights are. -/
lemma totalUsedHeight_eq_max (I : Inputs) :
    totalUsedHeight I = max (totalGaps I) (availableHeight I) := by
  unfold totalUsedHeight
  rw [panelHeights_sum]
  unfold availableHeightForPanels
  rcases le_total (availableHeight I - totalGaps I) 0 with h | h
  · rw [max_eq_left h, max_eq_left (by linarith), zero_add]
  · rw [max_eq_right h, max_eq_right (by linarith)]
    ring

lemma panelHeights_nonneg (I : Inputs) : ∀ h ∈ panelHeights I, 0 ≤ h := by
  intro h hh
  unfold panelHeights normalizedRatios at hh
  simp only [List.map_map, List.mem_map] at hh
  obtain ⟨r, hr, rfl⟩ := hh
  have hrpos : 0 < r := getProportionRatios_pos _ _ r hr
  have htot : 0 < totalRatio I := getProportionRatios_sum_pos _ _
  have havail : 0 ≤ availableHeightForPanels I := le_max_left _ _
  have : 0 ≤ r / totalRatio I := le_of_lt (div_pos hrpos htot)
  simpa using mul_nonneg this havail

lemma fits_manual_iff (I : Inputs) (hm : I.autoCalculateSpacing = false) :
    fits I ↔ totalGaps I ≤ availableHeight I + 0.01 := by
  unfold fits
  rw [hm]
  simp only [Bool.false_eq_true, if_false]
  rw [totalUsedHeight_eq_max, max_le_iff]
  constructor
  · exact fun h => h.1
  · exact fun h => ⟨h, by linarith⟩

lemma positionsFrom_length (gap : ℝ) (y : ℝ) (hs : List ℝ) :
    (positionsFrom gap y hs).length = hs.length := by
  induction hs generalizing y with
  | nil => rfl
  | cons h t ih => simp [positionsFrom, ih]

lemma positionsFrom_mem (gap : ℝ) :
    ∀ (hs : List ℝ) (y : ℝ), ∀ p ∈ positionsFrom gap y hs,
      p.height = p.bottom - p.top ∧ p.bottom = p.top + p.height ∧ p.height ∈ hs := by
  intro hs
  induction hs with
  | nil => intro y p hp; simp [positionsFrom] at hp
  | cons h t ih =>
      intro y p hp
      rcases List.mem_cons.mp hp with rfl | hp
      · refine ⟨by show h = y + h - y; ring, by show y + h = y + h; rfl,
          List.mem_cons_self _ _⟩
      · obtain ⟨a, b, c⟩ := ih (y + h + gap) p hp
        exact ⟨a, b, List.mem_cons_of_mem _ c⟩

lemma positionsFrom_top_le (gap : ℝ) (hgap : 0 ≤ gap) :
    ∀ (hs : List ℝ) (y : ℝ), (∀ h ∈ hs, 0 ≤ h) →
      ∀ p ∈ positionsFrom gap y hs, y ≤ p.top ∧ p.top ≤ p.bottom := by
  intro hs
  induction hs with
  | nil => intro y _ p hp; simp [positionsFrom] at hp
  | cons h t ih =>
      intro y hpos p hp
      have hh : 0 ≤ h := hpos h (List.mem_cons_self _ _)
      rcases List.mem_cons.mp hp with rfl | hp
      · exact ⟨le_refl _, by show y ≤ y + h; linarith⟩
      · have := ih (y + h + gap) (fun x hx => hpos x (List.mem_cons_of_mem _ hx)) p hp
        exact ⟨by linarith [this.1], this.2⟩

lemma positionsFrom_get_zero (gap y : ℝ) (hs : List ℝ)
    (h0 : 0 < (positionsFrom gap y hs).length) :
    ((positionsFrom gap y hs).get ⟨0, h0⟩).top = y := by
  cases hs with
  | nil => simp [positionsFrom] at h0
  | cons h t => rfl

lemma positionsFrom_chain (gap : ℝ) :
    ∀ (hs : List ℝ) (y : ℝ) (i : ℕ) (hi : i + 1 < (positionsFrom gap y hs).length),
      ((positionsFrom gap y hs).get ⟨i + 1, hi⟩).top
        = ((positionsFrom gap y hs).get ⟨i, Nat.lt_of_succ_lt hi⟩).bottom + gap := by
  intro hs
  induction hs with
  | nil => intro y i hi; simp [positionsFrom] at hi
  | cons h t ih =>
      intro y i hi
      cases i with
      | zero =>
          cases t with
          | nil => simp [positionsFrom] at hi
          | cons h2 t2 => simp [positionsFrom, List.get]
      | succ n =>
          have hi' : n + 1 < (positionsFrom gap (y + h + gap) t).length := by
            simpa [positionsFrom] using hi
          simpa [positionsFrom, List.get] using ih (y + h + gap) n hi'

lemma chooseBest_foldl_mem :
    ∀ (cs : List Candidate) (c : Candidate),
      cs.foldl (fun prev curr => if curr.score < prev.score then curr else prev) c
        ∈ c :: cs := by
  intro cs
  induction cs with
  | nil => intro c; simp
  | cons d ds ih =>
      intro c
      simp only [List.foldl_cons]
      have hmem2 : (if d.score < c.score then d else c) ∈ c :: d :: ds := by
        split <;> simp
      rcases List.mem_cons.mp (ih (if d.score < c.score then d else c)) with heq | hmem
      · rw [heq]; exact hmem2
      · exact List.mem_cons_of_mem _ (List.mem_cons_of_mem _ hmem)

lemma chooseBest_foldl_min :
    ∀ (cs : List Candidate) (c : Candidate),
      (cs.foldl (fun prev curr => if curr.score < prev.score then curr else prev) c).score
          ≤ c.score
        ∧ ∀ x ∈ cs,
          (cs.foldl (fun prev curr => if curr.score < prev.score then curr else prev) c).score
            ≤ x.score := by
  intro cs
  induction cs with
  | nil => intro c; exact ⟨le_refl _, by simp⟩
  | cons d ds ih =>
      intro c
      simp only [List.foldl_cons]
      obtain ⟨h1, h2⟩ := ih (if d.score < c.score then d else c)
      have hc : (if d.score < c.score then d else c).score ≤ c.score := by
        split
        · linarith
        · exact le_refl _
      have hd : (if d.score < c.score then d else c).score ≤ d.score := by
        split
        · exact le_refl _
        · linarith [not_lt.mp (by assumption)]
      refine ⟨le_trans h1 hc, ?_⟩
      intro x hx
      rcases List.mem_cons.mp hx with rfl | hx
      · exact le_trans h1 hd
      · exact h2 x hx

lemma chooseBest_spec (l : List Candidate) (c : Candidate)
    (h : chooseBest l = some c) : c ∈ l ∧ ∀ x ∈ l, c.score ≤ x.score := by
  cases l with
  | nil => cases h
  | cons a as =>
      have hc : c = as.foldl (fun prev curr => if curr.score < prev.score then curr else prev) a := by
        simpa [chooseBest] using h.symm
      subst hc
      refine ⟨chooseBest_foldl_mem as a, ?_⟩
      intro x hx
      obtain ⟨h1, h2⟩ := chooseBest_foldl_min as a
      rcases List.mem_cons.mp hx with rfl | hx
      · exact h1
      · exact h2 x hx

lemma chooseBest_eq_none {l : List Candidate} : chooseBest l = none ↔ l = [] := by
  cases l <;> simp [chooseBest]

lemma mem_panelCandidates (ideal r minEdge : ℝ) (ps : List PanelPosition)
    (c : Candidate) :
    c ∈ panelCandidates ideal r minEdge ps ↔
      ∃ p ∈ ps,
        (p.top + minEdge ≤ (p.top + p.bottom) / 2 - r
            ∧ (p.top + p.bottom) / 2 + r ≤ p.bottom - minEdge)
          ∧ c = ⟨(p.top + p.bottom) / 2 - r, |(p.top + p.bottom) / 2 - ideal|, false⟩ := by
  unfold panelCandidates
  simp only [List.mem_filterMap]
  constructor
  · rintro ⟨p, hp, hf⟩
    by_cases hc : p.top + minEdge ≤ (p.top + p.bottom) / 2 - r
        ∧ (p.top + p.bottom) / 2 + r ≤ p.bottom - minEdge
    · rw [if_pos hc] at hf
      exact ⟨p, hp, hc, (Option.some_inj.mp hf).symm⟩
    · rw [if_neg hc] at hf
      cases hf
  · rintro ⟨p, hp, hc, rfl⟩
    exact ⟨p, hp, by rw [if_pos hc]⟩

lemma mem_gapCandidates (ideal r minEdge : ℝ) (ps : List PanelPosition)
    (c : Candidate) :
    c ∈ gapCandidates ideal r minEdge ps ↔
      ∃ pq ∈ ps.zip ps.tail,
        (pq.1.bottom + minEdge ≤ (pq.1.bottom + pq.2.top) / 2 - r
            ∧ (pq.1.bottom + pq.2.top) / 2 + r ≤ pq.2.top - minEdge)
          ∧ c = ⟨(pq.1.bottom + pq.2.top) / 2 - r,
              |(pq.1.bottom + pq.2.top) / 2 - ideal|, true⟩ := by
  unfold gapCandidates
  simp only [List.mem_filterMap]
  constructor
  · rintro ⟨pq, hpq, hf⟩
    by_cases hc : pq.1.bottom + minEdge ≤ (pq.1.bottom + pq.2.top) / 2 - r
        ∧ (pq.1.bottom + pq.2.top) / 2 + r ≤ pq.2.top - minEdge
    · rw [if_pos hc] at hf
      exact ⟨pq, hpq, hc, (Option.some_inj.mp hf).symm⟩
    · rw [if_neg hc] at hf
      cases hf
  · rintro ⟨pq, hpq, hc, rfl⟩
    exact ⟨pq, hpq, by rw [if_pos hc]⟩

lemma ratioValue_pos (r : RatioType) : 0 < ratioValue r := by
  cases r <;> unfold ratioValue
  · positivity
  · positivity
  · norm_num
  · norm_num
  · positivity

lemma effectiveEdge_manual (I : Inputs) (hm : I.autoCalculateSpacing = false) :
    effectiveEdge I = I.edgeDistance := by
  unfold effectiveEdge effectiveSpacing
  rw [hm]
  simp

lemma effectiveGap_manual (I : Inputs) (hm : I.autoCalculateSpacing = false) :
    effectiveGap I = I.panelGap := by
  unfold effectiveGap effectiveSpacing
  rw [hm]
  simp

lemma fits_iff_max (I : Inputs) :
    fits I ↔ (if I.autoCalculateSpacing then True
      else max (totalGaps I) (availableHeight I) ≤ availableHeight I + 0.01) := by
  unfold fits
  rw [totalUsedHeight_eq_max]

lemma ex_heightRatios : heightRatios exInput = [1, 1] := rfl

lemma ex_edge : effectiveEdge exInput = 10 := rfl

lemma ex_gap : effectiveGap exInput = 10 := rfl

lemma ex_totalRatio : totalRatio exInput = 2 := by
  rw [totalRatio, ex_heightRatios]
  norm_num

lemma ex_availableHeight : availableHeight exInput = 80 := by
  rw [availableHeight, ex_edge]
  norm_num [exInput]

lemma ex_totalGaps : totalGaps exInput = 10 := by
  rw [totalGaps, ex_gap]
  norm_num [exInput]

lemma ex_availForPanels : availableHeightForPanels exInput = 70 := by
  rw [availableHeightForPanels, ex_availableHeight, ex_totalGaps]
  norm_num

lemma ex_panelHeights : panelHeights exInput = [35, 35] := by
  rw [panelHeights, normalizedRatios, ex_heightRatios, ex_totalRatio, ex_availForPanels]
  norm_num

lemma ex_positions : panelPositions exInput = [⟨10, 45, 35⟩, ⟨55, 90, 35⟩] := by
  rw [panelPositions, ex_panelHeights, ex_edge, ex_gap]
  norm_num [positionsFrom, PanelPosition.mk.injEq]

lemma ex_len_lt : 0 + 1 < (panelPositions exInput).length := by
  rw [ex_positions]
  norm_num

/-- C8: `availableHeightForPanels` is the clamped value
`max(0, height - 2·edge - (panelCount-1)·gap)`, and consequently every
computed panel height is nonnegative. -/
theorem available_height_clamp (I : Inputs) :
    availableHeightForPanels I
        = max 0 (I.doorHeight - 2 * effectiveEdge I
            - ((I.panelCount : ℝ) - 1) * effectiveGap I)
    ∧ ∀ h ∈ panelHeights I, 0 ≤ h :=
  ⟨rfl, panelHeights_nonneg I⟩

/-- C9: `totalUsedHeight` and `fits` do not depend on the proportion type; in
exact arithmetic `totalUsedHeight = max(availableHeight, totalGaps)`. -/
theorem proportion_noninterference (I : Inputs) (t1 t2 : ProportionType) :
    totalUsedHeight { I with proportionType := t1 }
        = totalUsedHeight { I with proportionType := t2 }
    ∧ (fits { I with proportionType := t1 } ↔ fits { I with proportionType := t2 })
    ∧ totalUsedHeight I = max (availableHeight I) (totalGaps I) := by
  refine ⟨?_, ?_, ?_⟩
  · rw [totalUsedHeight_eq_max, totalUsedHeight_eq_max]
    rfl
  · rw [fits_iff_max, fits_iff_max]
    exact Iff.rfl
  · rw [totalUsedHeight_eq_max, max_comm]

/-- C4: in manual mode `fits` holds exactly when
`totalUsedHeight ≤ (height - 2·effectiveEdge) + 0.01`; in auto mode `fits`
holds unconditionally, fallback branches included. -/
theorem fits_verdict (I : Inputs) :
    (I.autoCalculateSpacing = false →
      (fits I ↔ totalUsedHeight I ≤ I.doorHeight - 2 * effectiveEdge I + 0.01))
    ∧ (I.autoCalculateSpacing = true → fits I) := by
  constructor
  · intro hm
    unfold fits
    rw [hm]
    simp only [Bool.false_eq_true, if_false]
    exact Iff.rfl
  · intro ha
    unfold fits
    rw [ha]
    simp

theorem fits_verdict_witness :
    exInput.autoCalculateSpacing = false
    ∧ (fits exInput ↔
        totalUsedHeight exInput ≤ exInput.doorHeight - 2 * effectiveEdge exInput + 0.01) :=
  ⟨rfl, (fits_verdict exInput).1 rfl⟩

/-- C5: the first panel starts at the effective edge distance, each next
panel starts one effective gap below the previous panel's bottom, and every
position's `height` field is `bottom - top`. -/
theorem panel_positions_contiguous (I : Inputs) :
    (∀ h0 : 0 < (panelPositions I).length,
        ((panelPositions I).get ⟨0, h0⟩).top = effectiveEdge I)
    ∧ (∀ (i : ℕ) (hi : i + 1 < (panelPositions I).length),
        ((panelPositions I).get ⟨i + 1, hi⟩).top
          = ((panelPositions I).get ⟨i, Nat.lt_of_succ_lt hi⟩).bottom + effectiveGap I)
    ∧ ∀ p ∈ panelPositions I, p.height = p.bottom - p.top :=
  ⟨fun h0 => positionsFrom_get_zero _ _ _ h0,
   fun i hi => positionsFrom_chain _ _ _ i hi,
   fun p hp => (positionsFrom_mem _ _ _ p hp).1⟩

theorem panel_positions_contiguous_witness :
    ((panelPositions exInput).get ⟨0 + 1, ex_len_lt⟩).top
      = ((panelPositions exInput).get ⟨0, Nat.lt_of_succ_lt ex_len_lt⟩).bottom
          + effectiveGap exInput :=
  (panel_positions_contiguous exInput).2.1 0 ex_len_lt

/-- C6: for every panel count in [1, 50] and each of the five proportion
types, the weight generator is deterministic, produces exactly `count`
weights, and every weight is strictly positive. -/
theorem weight_generator_spec (count : ℕ) (t : ProportionType)
    (h1 : 1 ≤ count) (_h50 : count ≤ 50)
    (_ht : t ∈ [ProportionType.equal, ProportionType.golden, ProportionType.reverse,
      ProportionType.classic, ProportionType.fibonacci]) :
    getProportionRatios count t = getProportionRatios count t
    ∧ (getProportionRatios count t).length = count
    ∧ ∀ x ∈ getProportionRatios count t, 0 < x :=
  ⟨rfl, getProportionRatios_length count t h1, getProportionRatios_pos count t⟩

theorem weight_generator_spec_witness :
    (1 ≤ 5 ∧ 5 ≤ 50
      ∧ ProportionType.golden ∈ [ProportionType.equal, ProportionType.golden,
          ProportionType.reverse, ProportionType.classic, ProportionType.fibonacci])
    ∧ ((getProportionRatios 5 .golden).length = 5
        ∧ ∀ x ∈ getProportionRatios 5 .golden, 0 < x) :=
  ⟨⟨by norm_num, by norm_num, by decide⟩,
    (weight_generator_spec 5 .golden (by norm_num) (by norm_num) (by decide)).2⟩

/-- C7: in manual mode with the door and panel count fixed, raising the gap
or the edge distance can never turn `fits` from false to true. -/
theorem fits_antitone (I : Inputs) (e g : ℝ)
    (hm : I.autoCalculateSpacing = false) (hn : 1 ≤ I.panelCount)
    (he : I.edgeDistance ≤ e) (hg : I.panelGap ≤ g)
    (hf : fits { I with edgeDistance := e, panelGap := g }) : fits I := by
  have hm' : ({ I with edgeDistance := e, panelGap := g } : Inputs).autoCalculateSpacing
      = false := hm
  rw [fits_manual_iff _ hm'] at hf
  rw [fits_manual_iff _ hm]
  have h1 : totalGaps { I with edgeDistance := e, panelGap := g }
      = ((I.panelCount : ℝ) - 1) * g := by
    unfold totalGaps
    rw [effectiveGap_manual _ hm']
  have h2 : availableHeight { I with edgeDistance := e, panelGap := g }
      = I.doorHeight - 2 * e := by
    unfold availableHeight
    rw [effectiveEdge_manual _ hm']
  have h3 : totalGaps I = ((I.panelCount : ℝ) - 1) * I.panelGap := by
    unfold totalGaps
    rw [effectiveGap_manual _ hm]
  have h4 : availableHeight I = I.doorHeight - 2 * I.edgeDistance := by
    unfold availableHeight
    rw [effectiveEdge_manual _ hm]
  rw [h1, h2] at hf
  rw [h3, h4]
  have hn' : (1 : ℝ) ≤ (I.panelCount : ℝ) := by exact_mod_cast hn
  have hmono : ((I.panelCount : ℝ) - 1) * I.panelGap ≤ ((I.panelCount : ℝ) - 1) * g :=
    mul_le_mul_of_nonneg_left hg (by linarith)
  linarith

theorem fits_antitone_witness :
    (exInput.autoCalculateSpacing = false ∧ 1 ≤ exInput.panelCount
      ∧ exInput.edgeDistance ≤ 11 ∧ exInput.panelGap ≤ 12)
    ∧ fits exInput := by
  have hm' : ({ exInput with edgeDistance := 11, panelGap := 12 } : Inputs).autoCalculateSpacing
      = false := rfl
  have hf : fits { exInput with edgeDistance := 11, panelGap := 12 } := by
    rw [fits_manual_iff _ hm']
    have h1 : totalGaps { exInput with edgeDistance := 11, panelGap := 12 } = 12 := by
      unfold totalGaps
      rw [effectiveGap_manual _ hm']
      norm_num [exInput]
    have h2 : availableHeight { exInput with edgeDistance := 11, panelGap := 12 } = 78 := by
      unfold availableHeight
      rw [effectiveEdge_manual _ hm']
      norm_num [exInput]
    rw [h1, h2]
    norm_num
  exact ⟨⟨rfl, by norm_num [exInput], by norm_num [exInput], by norm_num [exInput]⟩,
    fits_antitone exInput 11 12 rfl (by norm_num [exInput]) (by norm_num [exInput])
      (by norm_num [exInput]) hf⟩

lemma effectiveEdge_auto (I : Inputs) (hauto : I.autoCalculateSpacing = true) :
    effectiveEdge I =
      if 0 ≤ solverDisc I then
        if min |largeRoot I| |smallRoot I| < 1
            ∨ min |largeRoot I| |smallRoot I| > I.doorHeight / 3
        then I.doorHeight * 0.05
        else min |largeRoot I| |smallRoot I|
      else I.doorHeight * 0.05 := by
  unfold effectiveEdge effectiveSpacing
  rw [hauto]
  simp only [if_true]
  rfl

lemma effectiveGap_auto (I : Inputs) (hauto : I.autoCalculateSpacing = true) :
    effectiveGap I = effectiveEdge I / ratioValue I.spacingRatioType := by
  unfold effectiveGap effectiveEdge effectiveSpacing
  rw [hauto]
  simp only [if_true]
  rfl

/-- C1: in auto mode the resolver computes the discriminant of
`2k·e² - (k·W + 2·H)·e + W·H/(1+ratio) = 0` with `k = 2 + (n-1)/ratio`;
a negative discriminant yields the fallback edge `H·0.05`; otherwise the
smaller-magnitude root is taken (it is a genuine root of the quadratic),
falling back to `H·0.05` when it lies outside `[1, H/3]`; and in every case
`gap = edge / ratio`. -/
theorem spacing_resolver_branches (I : Inputs)
    (hauto : I.autoCalculateSpacing = true)
    (hW : 0 < I.doorWidth) (hH : 0 < I.doorHeight) (hn : 1 ≤ I.panelCount) :
    (solverDisc I < 0 → effectiveEdge I = I.doorHeight * 0.05)
    ∧ (0 ≤ solverDisc I →
        solverA I * smallRoot I ^ 2 + solverB I * smallRoot I + solverC I = 0
        ∧ |smallRoot I| ≤ |largeRoot I|
        ∧ ((smallRoot I < 1 ∨ smallRoot I > I.doorHeight / 3) →
            effectiveEdge I = I.doorHeight * 0.05)
        ∧ (1 ≤ smallRoot I → smallRoot I ≤ I.doorHeight / 3 →
            effectiveEdge I = smallRoot I))
    ∧ effectiveGap I = effectiveEdge I / ratioValue I.spacingRatioType := by
  have hratio : 0 < ratioValue I.spacingRatioType := ratioValue_pos _
  have hn' : (1 : ℝ) ≤ (I.panelCount : ℝ) := by exact_mod_cast hn
  have hk : 0 < solverK I := by
    unfold solverK
    have h0 : 0 ≤ ((I.panelCount : ℝ) - 1) / ratioValue I.spacingRatioType :=
      div_nonneg (by linarith) (le_of_lt hratio)
    linarith
  have ha : 0 < solverA I := by unfold solverA; linarith
  have hkW : 0 < solverK I * I.doorWidth := mul_pos hk hW
  have hb : solverB I < 0 := by unfold solverB; linarith
  have hc : 0 < solverC I := by
    unfold solverC
    exact div_pos (mul_pos hW hH) (by linarith)
  have hee := effectiveEdge_auto I hauto
  refine ⟨?_, ?_, effectiveGap_auto I hauto⟩
  · intro hdisc
    rw [hee, if_neg (not_le.mpr hdisc)]
  · intro hdisc
    have hs0 : 0 ≤ Real.sqrt (solverDisc I) := Real.sqrt_nonneg _
    have hs2 : Real.sqrt (solverDisc I) ^ 2 = solverDisc I := Real.sq_sqrt hdisc
    have hdisc_le : solverDisc I ≤ solverB I ^ 2 := by
      unfold solverDisc
      nlinarith [mul_pos ha hc]
    have hsb : Real.sqrt (solverDisc I) ≤ -solverB I := by
      have h1 : Real.sqrt (solverDisc I) ≤ |solverB I| := by
        rw [← Real.sqrt_sq_eq_abs]
        exact Real.sqrt_le_sqrt hdisc_le
      rwa [abs_of_neg hb] at h1
    have hsmall_nonneg : 0 ≤ smallRoot I := by
      unfold smallRoot
      exact div_nonneg (by linarith) (by linarith)
    have hle : smallRoot I ≤ largeRoot I := by
      unfold smallRoot largeRoot
      exact (div_le_div_iff_of_pos_right (by linarith)).mpr (by linarith)
    have hmin : min |largeRoot I| |smallRoot I| = smallRoot I := by
      rw [abs_of_nonneg hsmall_nonneg, abs_of_nonneg (le_trans hsmall_nonneg hle),
        min_eq_right hle]
    refine ⟨?_, ?_, ?_, ?_⟩
    · have ha2 : (2 * solverA I) ≠ 0 := by positivity
      have h4a : (4 : ℝ) * solverA I ≠ 0 := by positivity
      have key : solverA I * smallRoot I ^ 2 + solverB I * smallRoot I + solverC I
          = (Real.sqrt (solverDisc I) ^ 2
              - (solverB I ^ 2 - 4 * solverA I * solverC I)) / (4 * solverA I) := by
        unfold smallRoot
        field_simp
        linear_combination solverA I ^ 3 * 8 * hs2
      rw [key, hs2]
      unfold solverDisc
      simp
    · rw [abs_of_nonneg hsmall_nonneg, abs_of_nonneg (le_trans hsmall_nonneg hle)]
      exact hle
    · intro hrange
      rw [hee, if_pos hdisc, hmin, if_pos hrange]
    · intro h1 h3
      rw [hee, if_pos hdisc, hmin, if_neg (by push_neg; exact ⟨h1, h3⟩)]

theorem spacing_resolver_branches_witness :
    (exAutoSpacing.autoCalculateSpacing = true ∧ 0 < exAutoSpacing.doorWidth
      ∧ 0 < exAutoSpacing.doorHeight ∧ 1 ≤ exAutoSpacing.panelCount)
    ∧ ((solverDisc exAutoSpacing < 0 →
          effectiveEdge exAutoSpacing = exAutoSpacing.doorHeight * 0.05)
        ∧ (0 ≤ solverDisc exAutoSpacing →
            solverA exAutoSpacing * smallRoot exAutoSpacing ^ 2
                + solverB exAutoSpacing * smallRoot exAutoSpacing + solverC exAutoSpacing = 0
            ∧ |smallRoot exAutoSpacing| ≤ |largeRoot exAutoSpacing|
            ∧ ((smallRoot exAutoSpacing < 1
                  ∨ smallRoot exAutoSpacing > exAutoSpacing.doorHeight / 3) →
                effectiveEdge exAutoSpacing = exAutoSpacing.doorHeight * 0.05)
            ∧ (1 ≤ smallRoot exAutoSpacing →
                smallRoot exAutoSpacing ≤ exAutoSpacing.doorHeight / 3 →
                effectiveEdge exAutoSpacing = smallRoot exAutoSpacing))
        ∧ effectiveGap exAutoSpacing
            = effectiveEdge exAutoSpacing / ratioValue exAutoSpacing.spacingRatioType) :=
  ⟨⟨rfl, by norm_num [exAutoSpacing], by norm_num [exAutoSpacing],
      by norm_num [exAutoSpacing]⟩,
    spacing_resolver_branches exAutoSpacing rfl (by norm_num [exAutoSpacing])
      (by norm_num [exAutoSpacing]) (by norm_num [exAutoSpacing])⟩

lemma ex_actualTop : actualPeepholeTop exInput = 41 := rfl

lemma ex_classify0 :
    classifyPanel exInput.minEdgeDistance (exInput.peepholeDiameter / 2)
        (actualPeepholeTop exInput) exInput.peepholeDiameter ⟨10, 45, 35⟩
      = some (Conflict.tooCloseToEdge (-2)) := by
  show classifyPanel 2 (6 / 2) 41 6 ⟨10, 45, 35⟩ = some (Conflict.tooCloseToEdge (-2))
  simp only [classifyPanel]
  rw [if_pos (by norm_num : (10 : ℝ) ≤ (41 : ℝ) + 6 / 2 ∧ (41 : ℝ) + 6 / 2 ≤ 45)]
  have hmin : min ((41 : ℝ) + 6 / 2 - 6 / 2 - 10) (45 - ((41 : ℝ) + 6 / 2 + 6 / 2))
      = (-2 : ℝ) := by
    rw [min_eq_right (by norm_num)]
    norm_num
  rw [hmin, if_pos (by norm_num : (-2 : ℝ) < 2)]

lemma ex_conflicts :
    peepholeConflicts exInput
      = [some (Conflict.tooCloseToEdge (-2)),
         classifyPanel exInput.minEdgeDistance (exInput.peepholeDiameter / 2)
           (actualPeepholeTop exInput) exInput.peepholeDiameter ⟨55, 90, 35⟩] := by
  have hs : exInput.showPeephole = true := rfl
  unfold peepholeConflicts
  rw [if_pos hs, ex_positions]
  simp only [List.map_cons, List.map_nil]
  rw [ex_classify0]

/-- C2 counterexample: at `exInput` the resolved peephole spans `[41, 47]`,
which overlaps panel 1's span `[10, 45]` without being fully contained in it
(its bottom 47 sticks out), yet the panel's classification is
`tooCloseToEdge (-2)` — the inside branch with a negative clearance — and not
`crossesEdge` as the claim requires. -/
theorem conflict_span_rule_counterexample :
    actualPeepholeTop exInput = 41
    ∧ (panelPositions exInput).get? 0 = some ⟨10, 45, 35⟩
    ∧ ((41 : ℝ) < 45 ∧ (10 : ℝ) < 41 + 6)
    ∧ ¬ ((10 : ℝ) ≤ 41 ∧ (41 : ℝ) + 6 ≤ 45)
    ∧ (peepholeConflicts exInput).get? 0 = some (some (Conflict.tooCloseToEdge (-2)))
    ∧ ¬ ∃ dist, (peepholeConflicts exInput).get? 0
        = some (some (Conflict.crossesEdge dist)) := by
  have hget : (peepholeConflicts exInput).get? 0
      = some (some (Conflict.tooCloseToEdge (-2))) := by
    rw [ex_conflicts]
    rfl
  refine ⟨ex_actualTop, by rw [ex_positions]; rfl, by norm_num, by norm_num, hget, ?_⟩
  rintro ⟨dist, hdist⟩
  rw [hget] at hdist
  simp at hdist

/-- C2 (amended): the inside branch fires exactly when the peephole CENTER
lies within `[panel.top, panel.bottom]` (even if the span sticks out), and
then the radius-aware minimum clearance
`min(resolvedTop - top, bottom - (resolvedTop + diameter))` is compared
against `minEdgeDistance` to pick `tooCloseToEdge` versus `insideSafe`;
`crossesEdge` is assigned exactly when the center is outside the panel but
the span `[resolvedTop, resolvedTop + diameter]` overlaps it; and a panel is
classified `insideSafe` or `tooCloseToEdge` only when the center is within
the panel. -/
theorem conflict_classification_rule (I : Inputs) (p : PanelPosition)
    (hmem : p ∈ panelPositions I) (hs : I.showPeephole = true) :
    classifyPanel I.minEdgeDistance (I.peepholeDiameter / 2) (actualPeepholeTop I)
        I.peepholeDiameter p ∈ peepholeConflicts I
    ∧ (p.top ≤ peepholeCenter I → peepholeCenter I ≤ p.bottom →
        classifyPanel I.minEdgeDistance (I.peepholeDiameter / 2) (actualPeepholeTop I)
            I.peepholeDiameter p
          = some (if min (actualPeepholeTop I - p.top)
                (p.bottom - (actualPeepholeTop I + I.peepholeDiameter)) < I.minEdgeDistance
              then Conflict.tooCloseToEdge (min (actualPeepholeTop I - p.top)
                (p.bottom - (actualPeepholeTop I + I.peepholeDiameter)))
              else Conflict.insideSafe (min (actualPeepholeTop I - p.top)
                (p.bottom - (actualPeepholeTop I + I.peepholeDiameter)))))
    ∧ (¬ (p.top ≤ peepholeCenter I ∧ peepholeCenter I ≤ p.bottom) →
        actualPeepholeTop I < p.bottom → p.top < peepholeBottom I →
        classifyPanel I.minEdgeDistance (I.peepholeDiameter / 2) (actualPeepholeTop I)
            I.peepholeDiameter p
          = some (Conflict.crossesEdge
              (min |peepholeCenter I - p.top| |peepholeCenter I - p.bottom|)))
    ∧ ∀ dist,
        (classifyPanel I.minEdgeDistance (I.peepholeDiameter / 2) (actualPeepholeTop I)
              I.peepholeDiameter p = some (Conflict.insideSafe dist)
          ∨ classifyPanel I.minEdgeDistance (I.peepholeDiameter / 2) (actualPeepholeTop I)
              I.peepholeDiameter p = some (Conflict.tooCloseToEdge dist)) →
        p.top ≤ peepholeCenter I ∧ peepholeCenter I ≤ p.bottom := by
  refine ⟨?_, ?_, ?_, ?_⟩
  · unfold peepholeConflicts
    rw [if_pos hs]
    exact List.mem_map_of_mem _ hmem
  · intro h1 h2
    unfold classifyPanel
    rw [if_pos (⟨h1, h2⟩ :
      p.top ≤ actualPeepholeTop I + I.peepholeDiameter / 2
        ∧ actualPeepholeTop I + I.peepholeDiameter / 2 ≤ p.bottom)]
    have hA : actualPeepholeTop I + I.peepholeDiameter / 2 - I.peepholeDiameter / 2 - p.top
        = actualPeepholeTop I - p.top := by ring
    have hB : p.bottom - (actualPeepholeTop I + I.peepholeDiameter / 2 + I.peepholeDiameter / 2)
        = p.bottom - (actualPeepholeTop I + I.peepholeDiameter) := by ring
    rw [hA, hB]
    by_cases hlt : min (actualPeepholeTop I - p.top)
        (p.bottom - (actualPeepholeTop I + I.peepholeDiameter)) < I.minEdgeDistance
    · rw [if_pos hlt, if_pos hlt]
    · rw [if_neg hlt, if_neg hlt]
  · intro hnot hov1 hov2
    have hnot' : ¬ (p.top ≤ actualPeepholeTop I + I.peepholeDiameter / 2
        ∧ actualPeepholeTop I + I.peepholeDiameter / 2 ≤ p.bottom) := hnot
    unfold classifyPanel
    rw [if_neg hnot', if_pos (⟨hov1, hov2⟩ :
      actualPeepholeTop I < p.bottom ∧ actualPeepholeTop I + I.peepholeDiameter > p.top)]
    rfl
  · intro dist h
    by_cases hcond : p.top ≤ actualPeepholeTop I + I.peepholeDiameter / 2
        ∧ actualPeepholeTop I + I.peepholeDiameter / 2 ≤ p.bottom
    · exact hcond
    · exfalso
      unfold classifyPanel at h
      rw [if_neg hcond] at h
      by_cases hov : actualPeepholeTop I < p.bottom
          ∧ actualPeepholeTop I + I.peepholeDiameter > p.top
      · rw [if_pos hov] at h
        rcases h with h | h <;> simp at h
      · rw [if_neg hov] at h
        rcases h with h | h <;> simp at h

theorem conflict_classification_rule_witness :
    ((⟨10, 45, 35⟩ : PanelPosition) ∈ panelPositions exInput
      ∧ exInput.showPeephole = true)
    ∧ (classifyPanel exInput.minEdgeDistance (exInput.peepholeDiameter / 2)
          (actualPeepholeTop exInput) exInput.peepholeDiameter ⟨10, 45, 35⟩
        ∈ peepholeConflicts exInput
      ∧ ((⟨10, 45, 35⟩ : PanelPosition).top ≤ peepholeCenter exInput →
          peepholeCenter exInput ≤ (⟨10, 45, 35⟩ : PanelPosition).bottom →
          classifyPanel exInput.minEdgeDistance (exInput.peepholeDiameter / 2)
              (actualPeepholeTop exInput) exInput.peepholeDiameter ⟨10, 45, 35⟩
            = some (if min (actualPeepholeTop exInput - (⟨10, 45, 35⟩ : PanelPosition).top)
                  ((⟨10, 45, 35⟩ : PanelPosition).bottom
                    - (actualPeepholeTop exInput + exInput.peepholeDiameter))
                  < exInput.minEdgeDistance
                then Conflict.tooCloseToEdge
                  (min (actualPeepholeTop exInput - (⟨10, 45, 35⟩ : PanelPosition).top)
                    ((⟨10, 45, 35⟩ : PanelPosition).bottom
                      - (actualPeepholeTop exInput + exInput.peepholeDiameter)))
                else Conflict.insideSafe
                  (min (actualPeepholeTop exInput - (⟨10, 45, 35⟩ : PanelPosition).top)
                    ((⟨10, 45, 35⟩ : PanelPosition).bottom
                      - (actualPeepholeTop exInput + exInput.peepholeDiameter)))))
      ∧ (¬ ((⟨10, 45, 35⟩ : PanelPosition).top ≤ peepholeCenter exInput
            ∧ peepholeCenter exInput ≤ (⟨10, 45, 35⟩ : PanelPosition).bottom) →
          actualPeepholeTop exInput < (⟨10, 45, 35⟩ : PanelPosition).bottom →
          (⟨10, 45, 35⟩ : PanelPosition).top < peepholeBottom exInput →
          classifyPanel exInput.minEdgeDistance (exInput.peepholeDiameter / 2)
              (actualPeepholeTop exInput) exInput.peepholeDiameter ⟨10, 45, 35⟩
            = some (Conflict.crossesEdge
                (min |peepholeCenter exInput - (⟨10, 45, 35⟩ : PanelPosition).top|
                  |peepholeCenter exInput - (⟨10, 45, 35⟩ : PanelPosition).bottom|)))
      ∧ ∀ dist,
          (classifyPanel exInput.minEdgeDistance (exInput.peepholeDiameter / 2)
                (actualPeepholeTop exInput) exInput.peepholeDiameter ⟨10, 45, 35⟩
              = some (Conflict.insideSafe dist)
            ∨ classifyPanel exInput.minEdgeDistance (exInput.peepholeDiameter / 2)
                (actualPeepholeTop exInput) exInput.peepholeDiameter ⟨10, 45, 35⟩
              = some (Conflict.tooCloseToEdge dist)) →
          (⟨10, 45, 35⟩ : PanelPosition).top ≤ peepholeCenter exInput
            ∧ peepholeCenter exInput ≤ (⟨10, 45, 35⟩ : PanelPosition).bottom) :=
  have hmem : (⟨10, 45, 35⟩ : PanelPosition) ∈ panelPositions exInput := by
    rw [ex_positions]
    exact List.mem_cons_self _ _
  ⟨⟨hmem, rfl⟩, conflict_classification_rule exInput ⟨10, 45, 35⟩ hmem rfl⟩

lemma peepholePlacement_auto (I : Inputs) (hs : I.showPeephole = true)
    (ha : I.autoCenterPeephole = true) :
    peepholePlacement I = autoPlace (idealHeight I) (I.peepholeDiameter / 2)
      I.minEdgeDistance I.preferGapPlacement (panelPositions I) := by
  unfold peepholePlacement
  rw [hs, ha]
  simp

lemma autoPlace_cases (ideal r minEdge : ℝ) (prefer : Bool) (ps : List PanelPosition) :
    (panelCandidates ideal r minEdge ps ≠ [] → prefer = false →
      ∃ c ∈ panelCandidates ideal r minEdge ps,
        autoPlace ideal r minEdge prefer ps = (c.position, false)
          ∧ ∀ x ∈ panelCandidates ideal r minEdge ps, c.score ≤ x.score)
    ∧ (panelCandidates ideal r minEdge ps = [] → gapCandidates ideal r minEdge ps ≠ [] →
        prefer = false →
      ∃ c ∈ gapCandidates ideal r minEdge ps,
        autoPlace ideal r minEdge prefer ps = (c.position, true)
          ∧ ∀ x ∈ gapCandidates ideal r minEdge ps, c.score ≤ x.score)
    ∧ (gapCandidates ideal r minEdge ps ≠ [] → prefer = true →
      ∃ c ∈ gapCandidates ideal r minEdge ps,
        autoPlace ideal r minEdge prefer ps = (c.position, true)
          ∧ ∀ x ∈ gapCandidates ideal r minEdge ps, c.score ≤ x.score)
    ∧ (gapCandidates ideal r minEdge ps = [] → panelCandidates ideal r minEdge ps ≠ [] →
        prefer = true →
      ∃ c ∈ panelCandidates ideal r minEdge ps,
        autoPlace ideal r minEdge prefer ps = (c.position, false)
          ∧ ∀ x ∈ panelCandidates ideal r minEdge ps, c.score ≤ x.score)
    ∧ (panelCandidates ideal r minEdge ps = [] → gapCandidates ideal r minEdge ps = [] →
        autoPlace ideal r minEdge prefer ps = (ideal, false)) := by
  refine ⟨?_, ?_, ?_, ?_, ?_⟩
  · intro hne hp
    obtain ⟨c, hc⟩ : ∃ c, chooseBest (panelCandidates ideal r minEdge ps) = some c := by
      cases hcb : chooseBest (panelCandidates ideal r minEdge ps) with
      | none => exact absurd (chooseBest_eq_none.mp hcb) hne
      | some c => exact ⟨c, rfl⟩
    obtain ⟨hmem, hmin⟩ := chooseBest_spec _ _ hc
    refine ⟨c, hmem, ?_, hmin⟩
    unfold autoPlace
    rw [hp]
    simp only [Bool.false_eq_true, if_false]
    rw [hc]
  · intro hpe hne hp
    obtain ⟨c, hc⟩ : ∃ c, chooseBest (gapCandidates ideal r minEdge ps) = some c := by
      cases hcb : chooseBest (gapCandidates ideal r minEdge ps) with
      | none => exact absurd (chooseBest_eq_none.mp hcb) hne
      | some c => exact ⟨c, rfl⟩
    obtain ⟨hmem, hmin⟩ := chooseBest_spec _ _ hc
    refine ⟨c, hmem, ?_, hmin⟩
    unfold autoPlace
    rw [hp]
    simp only [Bool.false_eq_true, if_false]
    rw [chooseBest_eq_none.mpr hpe, hc]
  · intro hne hp
    obtain ⟨c, hc⟩ : ∃ c, chooseBest (gapCandidates ideal r minEdge ps) = some c := by
      cases hcb : chooseBest (gapCandidates ideal r minEdge ps) with
      | none => exact absurd (chooseBest_eq_none.mp hcb) hne
      | some c => exact ⟨c, rfl⟩
    obtain ⟨hmem, hmin⟩ := chooseBest_spec _ _ hc
    refine ⟨c, hmem, ?_, hmin⟩
    unfold autoPlace
    rw [hp]
    simp only [if_true]
    rw [hc]
  · intro hge hne hp
    obtain ⟨c, hc⟩ : ∃ c, chooseBest (panelCandidates ideal r minEdge ps) = some c := by
      cases hcb : chooseBest (panelCandidates ideal r minEdge ps) with
      | none => exact absurd (chooseBest_eq_none.mp hcb) hne
      | some c => exact ⟨c, rfl⟩
    obtain ⟨hmem, hmin⟩ := chooseBest_spec _ _ hc
    refine ⟨c, hmem, ?_, hmin⟩
    unfold autoPlace
    rw [hp]
    simp only [if_true]
    rw [chooseBest_eq_none.mpr hge, hc]
  · intro hpe hge
    unfold autoPlace
    cases prefer with
    | false =>
        simp only [Bool.false_eq_true, if_false]
        rw [chooseBest_eq_none.mpr hpe, chooseBest_eq_none.mpr hge]
    | true =>
        simp only [if_true]
        rw [chooseBest_eq_none.mpr hge, chooseBest_eq_none.mpr hpe]

/-- C3: in auto-center mode the panel/gap candidates are exactly the panel
and gap centers that keep `minEdgeDistance` clearance for the
radius-`diameter/2` peephole, scored by distance from the ideal position
`doorHeight - 162.5`; with `preferGapPlacement = false` the resolver places
the peephole at the best-scoring panel candidate, falls back to the best gap
candidate, then to the unmodified ideal position; with
`preferGapPlacement = true` the roles of the two candidate sets swap. -/
theorem auto_center_selection (I : Inputs)
    (hs : I.showPeephole = true) (ha : I.autoCenterPeephole = true) :
    (∀ c, c ∈ panelCandidates (idealHeight I) (I.peepholeDiameter / 2)
          I.minEdgeDistance (panelPositions I) ↔
        ∃ p ∈ panelPositions I,
          (p.top + I.minEdgeDistance ≤ (p.top + p.bottom) / 2 - I.peepholeDiameter / 2
            ∧ (p.top + p.bottom) / 2 + I.peepholeDiameter / 2
                ≤ p.bottom - I.minEdgeDistance)
          ∧ c = ⟨(p.top + p.bottom) / 2 - I.peepholeDiameter / 2,
              |(p.top + p.bottom) / 2 - idealHeight I|, false⟩)
    ∧ (∀ c, c ∈ gapCandidates (idealHeight I) (I.peepholeDiameter / 2)
          I.minEdgeDistance (panelPositions I) ↔
        ∃ pq ∈ (panelPositions I).zip (panelPositions I).tail,
          (pq.1.bottom + I.minEdgeDistance
              ≤ (pq.1.bottom + pq.2.top) / 2 - I.peepholeDiameter / 2
            ∧ (pq.1.bottom + pq.2.top) / 2 + I.peepholeDiameter / 2
                ≤ pq.2.top - I.minEdgeDistance)
          ∧ c = ⟨(pq.1.bottom + pq.2.top) / 2 - I.peepholeDiameter / 2,
              |(pq.1.bottom + pq.2.top) / 2 - idealHeight I|, true⟩)
    ∧ (I.preferGapPlacement = false →
        (panelCandidates (idealHeight I) (I.peepholeDiameter / 2)
            I.minEdgeDistance (panelPositions I) ≠ [] →
          ∃ c ∈ panelCandidates (idealHeight I) (I.peepholeDiameter / 2)
              I.minEdgeDistance (panelPositions I),
            actualPeepholeTop I = c.position ∧ peepholeInGap I = false
              ∧ ∀ x ∈ panelCandidates (idealHeight I) (I.peepholeDiameter / 2)
                  I.minEdgeDistance (panelPositions I), c.score ≤ x.score)
        ∧ (panelCandidates (idealHeight I) (I.peepholeDiameter / 2)
              I.minEdgeDistance (panelPositions I) = [] →
            gapCandidates (idealHeight I) (I.peepholeDiameter / 2)
              I.minEdgeDistance (panelPositions I) ≠ [] →
          ∃ c ∈ gapCandidates (idealHeight I) (I.peepholeDiameter / 2)
              I.minEdgeDistance (panelPositions I),
            actualPeepholeTop I = c.position ∧ peepholeInGap I = true
              ∧ ∀ x ∈ gapCandidates (idealHeight I) (I.peepholeDiameter / 2)
                  I.minEdgeDistance (panelPositions I), c.score ≤ x.score)
        ∧ (panelCandidates (idealHeight I) (I.peepholeDiameter / 2)
              I.minEdgeDistance (panelPositions I) = [] →
            gapCandidates (idealHeight I) (I.peepholeDiameter / 2)
              I.minEdgeDistance (panelPositions I) = [] →
          actualPeepholeTop I = idealHeight I ∧ peepholeInGap I = false))
    ∧ (I.preferGapPlacement = true →
        (gapCandidates (idealHeight I) (I.peepholeDiameter / 2)
            I.minEdgeDistance (panelPositions I) ≠ [] →
          ∃ c ∈ gapCandidates (idealHeight I) (I.peepholeDiameter / 2)
              I.minEdgeDistance (panelPositions I),
            actualPeepholeTop I = c.position ∧ peepholeInGap I = true
              ∧ ∀ x ∈ gapCandidates (idealHeight I) (I.peepholeDiameter / 2)
                  I.minEdgeDistance (panelPositions I), c.score ≤ x.score)
        ∧ (gapCandidates (idealHeight I) (I.peepholeDiameter / 2)
              I.minEdgeDistance (panelPositions I) = [] →
            panelCandidates (idealHeight I) (I.peepholeDiameter / 2)
              I.minEdgeDistance (panelPositions I) ≠ [] →
          ∃ c ∈ panelCandidates (idealHeight I) (I.peepholeDiameter / 2)
              I.minEdgeDistance (panelPositions I),
            actualPeepholeTop I = c.position ∧ peepholeInGap I = false
              ∧ ∀ x ∈ panelCandidates (idealHeight I) (I.peepholeDiameter / 2)
                  I.minEdgeDistance (panelPositions I), c.score ≤ x.score)
        ∧ (panelCandidates (idealHeight I) (I.peepholeDiameter / 2)
              I.minEdgeDistance (panelPositions I) = [] →
            gapCandidates (idealHeight I) (I.peepholeDiameter / 2)
              I.minEdgeDistance (panelPositions I) = [] →
          actualPeepholeTop I = idealHeight I ∧ peepholeInGap I = false)) := by
  have hpl := peepholePlacement_auto I hs ha
  have hcases := autoPlace_cases (idealHeight I) (I.peepholeDiameter / 2)
    I.minEdgeDistance I.preferGapPlacement (panelPositions I)
  refine ⟨fun c => mem_panelCandidates _ _ _ _ c, fun c => mem_gapCandidates _ _ _ _ c,
    ?_, ?_⟩
  · intro hp
    refine ⟨?_, ?_, ?_⟩
    · intro hne
      obtain ⟨c, hmem, heq, hmin⟩ := hcases.1 hne hp
      refine ⟨c, hmem, ?_, ?_, hmin⟩
      · show (peepholePlacement I).1 = c.position
        rw [hpl, heq]
      · show (peepholePlacement I).2 = false
        rw [hpl, heq]
    · intro hpe hne
      obtain ⟨c, hmem, heq, hmin⟩ := hcases.2.1 hpe hne hp
      refine ⟨c, hmem, ?_, ?_, hmin⟩
      · show (peepholePlacement I).1 = c.position
        rw [hpl, heq]
      · show (peepholePlacement I).2 = true
        rw [hpl, heq]
    · intro hpe hge
      have heq := hcases.2.2.2.2 hpe hge
      constructor
      · show (peepholePlacement I).1 = idealHeight I
        rw [hpl, heq]
      · show (peepholePlacement I).2 = false
        rw [hpl, heq]
  · intro hp
    refine ⟨?_, ?_, ?_⟩
    · intro hne
      obtain ⟨c, hmem, heq, hmin⟩ := hcases.2.2.1 hne hp
      refine ⟨c, hmem, ?_, ?_, hmin⟩
      · show (peepholePlacement I).1 = c.position
        rw [hpl, heq]
      · show (peepholePlacement I).2 = true
        rw [hpl, heq]
    · intro hge hne
      obtain ⟨c, hmem, heq, hmin⟩ := hcases.2.2.2.1 hge hne hp
      refine ⟨c, hmem, ?_, ?_, hmin⟩
      · show (peepholePlacement I).1 = c.position
        rw [hpl, heq]
      · show (peepholePlacement I).2 = false
        rw [hpl, heq]
    · intro hpe hge
      have heq := hcases.2.2.2.2 hpe hge
      constructor
      · show (peepholePlacement I).1 = idealHeight I
        rw [hpl, heq]
      · show (peepholePlacement I).2 = false
        rw [hpl, heq]

theorem auto_center_selection_witness :
    (exAutoCenter.showPeephole = true ∧ exAutoCenter.autoCenterPeephole = true)
    ∧ (exAutoCenter.preferGapPlacement = false →
        (panelCandidates (idealHeight exAutoCenter) (exAutoCenter.peepholeDiameter / 2)
            exAutoCenter.minEdgeDistance (panelPositions exAutoCenter) ≠ [] →
          ∃ c ∈ panelCandidates (idealHeight exAutoCenter)
              (exAutoCenter.peepholeDiameter / 2) exAutoCenter.minEdgeDistance
              (panelPositions exAutoCenter),
            actualPeepholeTop exAutoCenter = c.position
              ∧ peepholeInGap exAutoCenter = false
              ∧ ∀ x ∈ panelCandidates (idealHeight exAutoCenter)
                  (exAutoCenter.peepholeDiameter / 2) exAutoCenter.minEdgeDistance
                  (panelPositions exAutoCenter), c.score ≤ x.score)
        ∧ (panelCandidates (idealHeight exAutoCenter) (exAutoCenter.peepholeDiameter / 2)
              exAutoCenter.minEdgeDistance (panelPositions exAutoCenter) = [] →
            gapCandidates (idealHeight exAutoCenter) (exAutoCenter.peepholeDiameter / 2)
              exAutoCenter.minEdgeDistance (panelPositions exAutoCenter) ≠ [] →
          ∃ c ∈ gapCandidates (idealHeight exAutoCenter)
              (exAutoCenter.peepholeDiameter / 2) exAutoCenter.minEdgeDistance
              (panelPositions exAutoCenter),
            actualPeepholeTop exAutoCenter = c.position
              ∧ peepholeInGap exAutoCenter = true
              ∧ ∀ x ∈ gapCandidates (idealHeight exAutoCenter)
                  (exAutoCenter.peepholeDiameter / 2) exAutoCenter.minEdgeDistance
                  (panelPositions exAutoCenter), c.score ≤ x.score)
        ∧ (panelCandidates (idealHeight exAutoCenter) (exAutoCenter.peepholeDiameter / 2)
              exAutoCenter.minEdgeDistance (panelPositions exAutoCenter) = [] →
            gapCandidates (idealHeight exAutoCenter) (exAutoCenter.peepholeDiameter / 2)
              exAutoCenter.minEdgeDistance (panelPositions exAutoCenter) = [] →
          actualPeepholeTop exAutoCenter = idealHeight exAutoCenter
            ∧ peepholeInGap exAutoCenter = false)) :=
  ⟨⟨rfl, rfl⟩, (auto_center_selection exAutoCenter rfl rfl).2.2.1⟩

lemma classifyPanel_clear (minEdge r d top : ℝ) (p : PanelPosition)
    (hr : 0 ≤ r) (hm : 0 ≤ minEdge)
    (h1 : p.top + minEdge ≤ top) (h2 : top + r + r ≤ p.bottom - minEdge) :
    ∃ dist, minEdge ≤ dist
      ∧ classifyPanel minEdge r top d p = some (Conflict.insideSafe dist) := by
  refine ⟨min (top + r - r - p.top) (p.bottom - (top + r + r)), ?_, ?_⟩
  · exact le_min (by linarith) (by linarith)
  · simp only [classifyPanel]
    rw [if_pos (⟨by linarith, by linarith⟩ : p.top ≤ top + r ∧ top + r ≤ p.bottom)]
    rw [if_neg (not_lt.mpr (le_min (by linarith) (by linarith)))]

lemma mem_zip_tail (ps : List PanelPosition) (pq : PanelPosition × PanelPosition)
    (h : pq ∈ ps.zip ps.tail) :
    ∃ (j : ℕ) (hj2 : j + 1 < ps.length),
      pq.1 = ps.get ⟨j, Nat.lt_of_succ_lt hj2⟩ ∧ pq.2 = ps.get ⟨j + 1, hj2⟩ := by
  induction ps with
  | nil => simp at h
  | cons a as ih =>
      cases as with
      | nil => simp at h
      | cons b bs =>
          rcases List.mem_cons.mp h with heq | h'
          · refine ⟨0, by simp, ?_, ?_⟩
            · rw [heq]
              rfl
            · rw [heq]
              rfl
          · obtain ⟨j, hj2, h1, h2⟩ := ih h'
            refine ⟨j + 1, Nat.succ_lt_succ hj2, ?_, ?_⟩
            · simpa using h1
            · simpa using h2

lemma autoPlace_panel_of_not_inGap (ideal r minEdge : ℝ) (prefer : Bool)
    (ps : List PanelPosition)
    (hne : panelCandidates ideal r minEdge ps ≠ [])
    (h : (autoPlace ideal r minEdge prefer ps).2 = false) :
    ∃ c ∈ panelCandidates ideal r minEdge ps,
      autoPlace ideal r minEdge prefer ps = (c.position, false) := by
  obtain ⟨c, hc⟩ : ∃ c, chooseBest (panelCandidates ideal r minEdge ps) = some c := by
    cases hcb : chooseBest (panelCandidates ideal r minEdge ps) with
    | none => exact absurd (chooseBest_eq_none.mp hcb) hne
    | some c => exact ⟨c, rfl⟩
  cases prefer with
  | false =>
      refine ⟨c, (chooseBest_spec _ _ hc).1, ?_⟩
      unfold autoPlace
      simp only [Bool.false_eq_true, if_false]
      rw [hc]
  | true =>
      cases hg : chooseBest (gapCandidates ideal r minEdge ps) with
      | some b =>
          exfalso
          unfold autoPlace at h
          simp only [if_true] at h
          rw [hg] at h
          cases h
      | none =>
          refine ⟨c, (chooseBest_spec _ _ hc).1, ?_⟩
          unfold autoPlace
          simp only [if_true]
          rw [hg, hc]

lemma autoPlace_gap_of_inGap (ideal r minEdge : ℝ) (prefer : Bool)
    (ps : List PanelPosition)
    (h : (autoPlace ideal r minEdge prefer ps).2 = true) :
    ∃ c ∈ gapCandidates ideal r minEdge ps,
      autoPlace ideal r minEdge prefer ps = (c.position, true) := by
  cases prefer with
  | true =>
      cases hg : chooseBest (gapCandidates ideal r minEdge ps) with
      | some c =>
          refine ⟨c, (chooseBest_spec _ _ hg).1, ?_⟩
          unfold autoPlace
          simp only [if_true]
          rw [hg]
      | none =>
          exfalso
          unfold autoPlace at h
          simp only [if_true] at h
          rw [hg] at h
          cases hp : chooseBest (panelCandidates ideal r minEdge ps) with
          | some c => rw [hp] at h; cases h
          | none => rw [hp] at h; cases h
  | false =>
      cases hp : chooseBest (panelCandidates ideal r minEdge ps) with
      | some c =>
          exfalso
          unfold autoPlace at h
          simp only [Bool.false_eq_true, if_false] at h
          rw [hp] at h
          cases h
      | none =>
          cases hg : chooseBest (gapCandidates ideal r minEdge ps) with
          | some c =>
              refine ⟨c, (chooseBest_spec _ _ hg).1, ?_⟩
              unfold autoPlace
              simp only [Bool.false_eq_true, if_false]
              rw [hp, hg]
          | none =>
              exfalso
              unfold autoPlace at h
              simp only [Bool.false_eq_true, if_false] at h
              rw [hp, hg] at h
              cases h

lemma gapStatusFind_spec (minEdge top d center gap : ℝ) (hgap : 0 ≤ gap) :
    ∀ (hs : List ℝ) (y : ℝ), (∀ h ∈ hs, 0 ≤ h) →
      ∀ (j : ℕ) (hj2 : j + 1 < (positionsFrom gap y hs).length) (gT gB : ℝ),
        ((positionsFrom gap y hs).get ⟨j, Nat.lt_of_succ_lt hj2⟩).bottom = gT →
        ((positionsFrom gap y hs).get ⟨j + 1, hj2⟩).top = gB →
        gT < center → center < gB →
        gapStatusFind minEdge top d center (positionsFrom gap y hs)
          = if min (top - gT) (gB - (top + d)) < minEdge
            then some (GapStatus.gapTooClose (min (top - gT) (gB - (top + d))))
            else some (GapStatus.gapSafe (min (top - gT) (gB - (top + d)))) := by
  intro hs
  induction hs with
  | nil =>
      intro y _ j hj2 gT gB _ _ _ _
      simp [positionsFrom] at hj2
  | cons h1 t ih =>
      intro y hpos j hj2 gT gB hgT hgB hlo hhi
      cases t with
      | nil =>
          simp [positionsFrom] at hj2
      | cons h2 t2 =>
          have hrest : positionsFrom gap y (h1 :: h2 :: t2)
              = ⟨y, y + h1, h1⟩ :: ⟨y + h1 + gap, y + h1 + gap + h2, h2⟩
                  :: positionsFrom gap (y + h1 + gap + h2 + gap) t2 := rfl
          cases j with
          | zero =>
              have hb0 : ((positionsFrom gap y (h1 :: h2 :: t2)).get
                  ⟨0, Nat.lt_of_succ_lt hj2⟩).bottom = y + h1 := rfl
              have ht1 : ((positionsFrom gap y (h1 :: h2 :: t2)).get
                  ⟨0 + 1, hj2⟩).top = y + h1 + gap := rfl
              have hgT' : gT = y + h1 := hgT.symm.trans hb0
              have hgB' : gB = y + h1 + gap := hgB.symm.trans ht1
              rw [hrest]
              simp only [gapStatusFind]
              rw [if_pos (⟨hgT' ▸ hlo, hgB' ▸ hhi⟩ :
                y + h1 < center ∧ center < y + h1 + gap)]
              rw [hgT', hgB']
          | succ n =>
              have hj2' : n + 1 < (positionsFrom gap (y + h1 + gap) (h2 :: t2)).length :=
                Nat.lt_of_succ_lt_succ hj2
              have hgT2 : ((positionsFrom gap (y + h1 + gap) (h2 :: t2)).get
                  ⟨n, Nat.lt_of_succ_lt hj2'⟩).bottom = gT := hgT
              have hgB2 : ((positionsFrom gap (y + h1 + gap) (h2 :: t2)).get
                  ⟨n + 1, hj2'⟩).top = gB := hgB
              have hmemn : (positionsFrom gap (y + h1 + gap) (h2 :: t2)).get
                  ⟨n, Nat.lt_of_succ_lt hj2'⟩ ∈ positionsFrom gap (y + h1 + gap) (h2 :: t2) :=
                List.get_mem _ _ _
              have hbound := positionsFrom_top_le gap hgap (h2 :: t2) (y + h1 + gap)
                (fun x hx => hpos x (List.mem_cons_of_mem _ hx)) _ hmemn
              have hnot : ¬ (y + h1 < center ∧ center < y + h1 + gap) := by
                rintro ⟨-, hc2⟩
                have hcenter_gt : y + h1 + gap < center := by
                  calc y + h1 + gap ≤ _ := hbound.1.trans hbound.2
                  _ = gT := hgT2
                  _ < center := hlo
                exact absurd hc2 (not_lt.mpr (le_of_lt hcenter_gt))
              rw [hrest]
              simp only [gapStatusFind]
              rw [if_neg hnot]
              exact ih (y + h1 + gap) (fun x hx => hpos x (List.mem_cons_of_mem _ hx))
                n hj2' gT gB hgT2 hgB2 hlo hhi

/-- C10: assuming a positive peephole diameter and nonnegative minimum
clearance, the conflict analysis agrees with the auto-center admissibility
check: a chosen panel candidate is classified `insideSafe` for its panel
(never `tooCloseToEdge` or `crossesEdge`), and a chosen gap candidate gets
gap status `gapSafe` (never `gapTooClose`). -/
theorem auto_center_agreement (I : Inputs)
    (hd : 0 < I.peepholeDiameter) (hm : 0 ≤ I.minEdgeDistance)
    (hs : I.showPeephole = true) (ha : I.autoCenterPeephole = true) :
    (peepholeInGap I = false →
      panelCandidates (idealHeight I) (I.peepholeDiameter / 2) I.minEdgeDistance
          (panelPositions I) ≠ [] →
      ∃ p ∈ panelPositions I,
        actualPeepholeTop I = (p.top + p.bottom) / 2 - I.peepholeDiameter / 2
        ∧ ∃ dist, I.minEdgeDistance ≤ dist
            ∧ classifyPanel I.minEdgeDistance (I.peepholeDiameter / 2)
                (actualPeepholeTop I) I.peepholeDiameter p
              = some (Conflict.insideSafe dist)
            ∧ some (Conflict.insideSafe dist) ∈ peepholeConflicts I)
    ∧ (peepholeInGap I = true →
        ∃ dist, I.minEdgeDistance ≤ dist
          ∧ peepholeGapStatus I = some (GapStatus.gapSafe dist)) := by
  have hpl := peepholePlacement_auto I hs ha
  have hr : 0 < I.peepholeDiameter / 2 := by linarith
  constructor
  · intro hig hne
    have hig' : (autoPlace (idealHeight I) (I.peepholeDiameter / 2) I.minEdgeDistance
        I.preferGapPlacement (panelPositions I)).2 = false := by
      rw [← hpl]
      exact hig
    obtain ⟨c, hcmem, heq⟩ := autoPlace_panel_of_not_inGap _ _ _ _ _ hne hig'
    obtain ⟨p, hp, hadm, hcval⟩ := (mem_panelCandidates _ _ _ _ c).mp hcmem
    have hat : actualPeepholeTop I = c.position := by
      show (peepholePlacement I).1 = c.position
      rw [hpl, heq]
    have hatv : actualPeepholeTop I
        = (p.top + p.bottom) / 2 - I.peepholeDiameter / 2 := by
      rw [hat, hcval]
    obtain ⟨dist, hdist, hcls⟩ := classifyPanel_clear I.minEdgeDistance
      (I.peepholeDiameter / 2) I.peepholeDiameter (actualPeepholeTop I) p
      (le_of_lt hr) hm (by rw [hatv]; exact hadm.1) (by rw [hatv]; linarith [hadm.2])
    have hconfmem : classifyPanel I.minEdgeDistance (I.peepholeDiameter / 2)
        (actualPeepholeTop I) I.peepholeDiameter p ∈ peepholeConflicts I := by
      unfold peepholeConflicts
      rw [if_pos hs]
      exact List.mem_map_of_mem _ hp
    exact ⟨p, hp, hatv, dist, hdist, hcls, hcls ▸ hconfmem⟩
  · intro hig
    have hig' : (autoPlace (idealHeight I) (I.peepholeDiameter / 2) I.minEdgeDistance
        I.preferGapPlacement (panelPositions I)).2 = true := by
      rw [← hpl]
      exact hig
    obtain ⟨c, hcmem, heq⟩ := autoPlace_gap_of_inGap _ _ _ _ _ hig'
    obtain ⟨pq, hpq, hadm, hcval⟩ := (mem_gapCandidates _ _ _ _ c).mp hcmem
    have hat : actualPeepholeTop I = c.position := by
      show (peepholePlacement I).1 = c.position
      rw [hpl, heq]
    have hatv : actualPeepholeTop I
        = (pq.1.bottom + pq.2.top) / 2 - I.peepholeDiameter / 2 := by
      rw [hat, hcval]
    obtain ⟨j, hj2, hq1, hq2⟩ := mem_zip_tail (panelPositions I) pq hpq
    -- the gap width is the effective gap, so it is strictly positive here
    have hchain := positionsFrom_chain (effectiveGap I) (panelHeights I)
      (effectiveEdge I) j hj2
    have hgapwidth : pq.2.top = pq.1.bottom + effectiveGap I := by
      rw [hq1, hq2]
      exact hchain
    have hgappos : 0 ≤ effectiveGap I := by
      have := hadm.1
      have := hadm.2
      linarith
    have hcenterlo : pq.1.bottom < actualPeepholeTop I + I.peepholeDiameter / 2 := by
      rw [hatv]
      have := hadm.1
      linarith
    have hcenterhi : actualPeepholeTop I + I.peepholeDiameter / 2 < pq.2.top := by
      rw [hatv]
      have := hadm.2
      linarith
    have hfind := gapStatusFind_spec I.minEdgeDistance (actualPeepholeTop I)
      I.peepholeDiameter (actualPeepholeTop I + I.peepholeDiameter / 2)
      (effectiveGap I) hgappos (panelHeights I) (effectiveEdge I)
      (panelHeights_nonneg I) j hj2 pq.1.bottom pq.2.top
      (congrArg PanelPosition.bottom hq1.symm) (congrArg PanelPosition.top hq2.symm)
      hcenterlo hcenterhi
    have hd1 : I.minEdgeDistance ≤ actualPeepholeTop I - pq.1.bottom := by
      rw [hatv]
      have := hadm.1
      linarith
    have hd2 : I.minEdgeDistance
        ≤ pq.2.top - (actualPeepholeTop I + I.peepholeDiameter) := by
      rw [hatv]
      have := hadm.2
      linarith
    refine ⟨min (actualPeepholeTop I - pq.1.bottom)
        (pq.2.top - (actualPeepholeTop I + I.peepholeDiameter)),
      le_min hd1 hd2, ?_⟩
    unfold peepholeGapStatus
    rw [if_pos hs]
    show gapStatusFind I.minEdgeDistance (actualPeepholeTop I) I.peepholeDiameter
        (actualPeepholeTop I + I.peepholeDiameter / 2)
        (positionsFrom (effectiveGap I) (effectiveEdge I) (panelHeights I)) = _
    rw [hfind, if_neg (not_lt.mpr (le_min hd1 hd2))]

theorem auto_center_agreement_witness :
    (0 < exAutoCenter.peepholeDiameter ∧ 0 ≤ exAutoCenter.minEdgeDistance
      ∧ exAutoCenter.showPeephole = true ∧ exAutoCenter.autoCenterPeephole = true)
    ∧ (peepholeInGap exAutoCenter = true →
        ∃ dist, exAutoCenter.minEdgeDistance ≤ dist
          ∧ peepholeGapStatus exAutoCenter = some (GapStatus.gapSafe dist)) :=
  ⟨⟨by norm_num [exAutoCenter], by norm_num [exAutoCenter], rfl, rfl⟩,
    (auto_center_agreement exAutoCenter (by norm_num [exAutoCenter])
      (by norm_num [exAutoCenter]) rfl rfl).2⟩

end DoorCalc

